import Mathlib

/-!
Shallow embedding of `src/helloworld/main.cpp`: a BGI (Borland Graphics
Interface) program that animates a jet sprite across the screen.

The program is a straight-line procedure issuing immediate-mode drawing
calls.  We model it as a trace of graphics-API events (`GEvent`), together
with a small-step interpreter (`stepEvent`) over the observable graphics
state (`GState`): the current drawing color, the current fill style, the
background color, and the list of primitives painted on the surface since
the last clear.  Any deterministic pixel rasterization is a function of the
background color and that primitive list, so equality of `GState`s implies
pixel-identical surfaces.
-/

/-- BGI color constant `WHITE` (palette index 15). -/
def WHITE : ℕ := 15

/-- BGI color constant `BLUE` (palette index 1). -/
def BLUE : ℕ := 1

/-- BGI fill-pattern constant `SOLID_FILL` (value 1). -/
def SOLID_FILL : ℕ := 1

/-- One graphics-API call observable in the program.  Coordinates are `ℤ`,
mirroring the C `int` arguments (the program stays far below any overflow
bound, so plain integers are faithful). -/
inductive GEvent where
  | initgraph : GEvent
  | setbkcolor : ℕ → GEvent
  | cleardevice : GEvent
  | setcolor : ℕ → GEvent
  | setfillstyle : ℕ → ℕ → GEvent
  | rectangle : ℤ → ℤ → ℤ → ℤ → GEvent
  | floodfill : ℤ → ℤ → ℕ → GEvent
  | line : ℤ → ℤ → ℤ → ℤ → GEvent
  | fillellipse : ℤ → ℤ → ℤ → ℤ → GEvent
  | outtextxy : ℤ → ℤ → String → GEvent
  | delay : ℕ → GEvent
  | getch : GEvent
  | closegraph : GEvent
deriving DecidableEq

/-- A primitive as it lands on the surface, with the ambient colors it was
painted with: rectangle outline, line segment, flood fill, filled ellipse
(fill pattern/color plus outline color), or text. -/
inductive Prim where
  | rect : ℤ → ℤ → ℤ → ℤ → ℕ → Prim
  | seg : ℤ → ℤ → ℤ → ℤ → ℕ → Prim
  | flood : ℤ → ℤ → ℕ → ℕ → ℕ → Prim
  | fillel : ℤ → ℤ → ℤ → ℤ → ℕ → ℕ → ℕ → Prim
  | text : ℤ → ℤ → String → ℕ → Prim
deriving DecidableEq

/-- Observable graphics state: current drawing color, fill style
(pattern, color), background color, and the primitives painted since the
last `cleardevice`. -/
structure GState where
  color : ℕ
  fillPat : ℕ
  fillColor : ℕ
  bg : ℕ
  drawn : List Prim
deriving DecidableEq

/-- BGI state right after `initgraph`: drawing color `WHITE`, solid white
fill, black (palette 0) background, empty surface. -/
def startState : GState :=
  { color := WHITE, fillPat := SOLID_FILL, fillColor := WHITE, bg := 0, drawn := [] }

/-- Effect of one API call on the graphics state.  Shape calls append a
primitive stamped with the ambient colors; `cleardevice` erases the
surface; `delay`, `getch`, `initgraph`, `closegraph` leave it unchanged. -/
def stepEvent (s : GState) : GEvent → GState
  | .initgraph => s
  | .setbkcolor c => { s with bg := c }
  | .cleardevice => { s with drawn := [] }
  | .setcolor c => { s with color := c }
  | .setfillstyle p c => { s with fillPat := p, fillColor := c }
  | .rectangle l t r b => { s with drawn := s.drawn ++ [.rect l t r b s.color] }
  | .floodfill x y bd => { s with drawn := s.drawn ++ [.flood x y bd s.fillPat s.fillColor] }
  | .line x1 y1 x2 y2 => { s with drawn := s.drawn ++ [.seg x1 y1 x2 y2 s.color] }
  | .fillellipse x y rx ry =>
      { s with drawn := s.drawn ++ [.fillel x y rx ry s.fillPat s.fillColor s.color] }
  | .outtextxy x y t => { s with drawn := s.drawn ++ [.text x y t s.color] }
  | .delay _ => s
  | .getch => s
  | .closegraph => s

/-- Run a list of API calls from a state. -/
def execEvents (es : List GEvent) (s : GState) : GState :=
  es.foldl stepEvent s

/-- The API calls issued by `drawJet(x, y)`, in source order. -/
def drawJetEvents (x y : ℤ) : List GEvent :=
  [ .setcolor WHITE,
    .setfillstyle SOLID_FILL WHITE,
    .rectangle x y (x + 100) (y + 20),
    .floodfill (x + 1) (y + 1) WHITE,
    .line (x + 100) (y + 10) (x + 120) y,
    .line (x + 100) (y + 10) (x + 120) (y + 20),
    .line x y (x - 20) (y + 10),
    .line (x - 20) (y + 10) x (y + 20),
    .setfillstyle SOLID_FILL BLUE,
    .fillellipse (x + 30) (y + 10) 5 5,
    .fillellipse (x + 50) (y + 10) 5 5 ]

/-- The primitives `drawJet(x, y)` paints, with their colors: body
rectangle (white outline, white flood fill), two tail-fin segments, two
nose segments (all white), then the two blue-filled window ellipses. -/
def jetPrims (x y : ℤ) : List Prim :=
  [ .rect x y (x + 100) (y + 20) WHITE,
    .flood (x + 1) (y + 1) WHITE SOLID_FILL WHITE,
    .seg (x + 100) (y + 10) (x + 120) y WHITE,
    .seg (x + 100) (y + 10) (x + 120) (y + 20) WHITE,
    .seg x y (x - 20) (y + 10) WHITE,
    .seg (x - 20) (y + 10) x (y + 20) WHITE,
    .fillel (x + 30) (y + 10) 5 5 SOLID_FILL BLUE WHITE,
    .fillel (x + 50) (y + 10) 5 5 SOLID_FILL BLUE WHITE ]

lemma exec_drawJet (x y : ℤ) (s : GState) :
    execEvents (drawJetEvents x y) s =
      { color := WHITE, fillPat := SOLID_FILL, fillColor := BLUE, bg := s.bg,
        drawn := s.drawn ++ jetPrims x y } := by
  simp [execEvents, drawJetEvents, jetPrims, stepEvent]

/-- The successive values taken by the loop counter of
`for (int x = 0; x < maxx; x += 5)`, computed with explicit fuel so that
the definition is structural (the loop advances by 5 each iteration, so
`maxx` units of fuel always suffice; see `animXs`). -/
def forLoopXs : ℕ → ℕ → ℕ → List ℕ
  | 0, _, _ => []
  | fuel + 1, x, maxx => if x < maxx then x :: forLoopXs fuel (x + 5) maxx else []

/-- The anchor x-positions at which the animation loop of `main` draws the
jet: the values of `x` in `for (int x = 0; x < getmaxx(); x += 5)`, where
`maxx` is the value returned by `getmaxx()`. -/
def animXs (maxx : ℕ) : List ℕ :=
  forLoopXs maxx 0 maxx

lemma forLoopXs_eq (fuel x maxx : ℕ) (h : (maxx - x + 4) / 5 ≤ fuel) :
    forLoopXs fuel x maxx =
      (List.range ((maxx - x + 4) / 5)).map (fun i => x + 5 * i) := by
  induction fuel generalizing x with
  | zero =>
      rw [show (maxx - x + 4) / 5 = 0 by omega]
      simp [forLoopXs]
  | succ fuel ih =>
      by_cases hx : x < maxx
      · have hk : (maxx - x + 4) / 5 = (maxx - (x + 5) + 4) / 5 + 1 := by omega
        rw [forLoopXs, if_pos hx, ih (x + 5) (by omega), hk,
          List.range_succ_eq_map]
        simp only [List.map_cons, List.map_map, Nat.mul_zero, Nat.add_zero]
        refine congrArg _ (List.map_congr_left fun i _ => ?_)
        simp [Function.comp]
        omega
      · rw [show (maxx - x + 4) / 5 = 0 by omega]
        simp [forLoopXs, hx]

lemma animXs_eq (maxx : ℕ) :
    animXs maxx = (List.range ((maxx + 4) / 5)).map (fun i => 5 * i) := by
  rw [animXs, forLoopXs_eq maxx 0 maxx (by omega)]
  simp

/-- The API calls of one animation-loop iteration at anchor `x`:
`cleardevice(); drawJet(x, 200); delay(30);`. -/
def frameEvents (x : ℤ) : List GEvent :=
  .cleardevice :: (drawJetEvents x 200 ++ [.delay 30])

/-- Everything `main` does before the closing prompt: `initgraph`, blue
background, initial clear, then the animation loop.  `maxx` is the value
returned by `getmaxx()`. -/
def animPart (maxx : ℕ) : List GEvent :=
  [.initgraph, .setbkcolor BLUE, .cleardevice] ++
    (animXs maxx).flatMap fun x => frameEvents (x : ℤ)

/-- The full API-call trace of `main`, with `maxx`, `maxy` the values
returned by `getmaxx()` and `getmaxy()`. -/
def mainEvents (maxx maxy : ℕ) : List GEvent :=
  animPart maxx ++
    [ .outtextxy ((maxx : ℤ) / 2 - 100) ((maxy : ℤ) - 30) "Press any key to exit...",
      .getch,
      .closegraph ]

/-- The trace and exit code of `main`, as a function of whether `initgraph`
acquired a surface (`initOk`).  The source never inspects the result of
`initgraph(&gd, &gm, "")` — there is no `graphresult()` check and no branch
— so the trace and the returned value `0` are the same whether or not
initialization succeeded. -/
def mainResult (initOk : Bool) (maxx maxy : ℕ) : List GEvent × ℤ :=
  (mainEvents maxx maxy, 0)

lemma exec_append (es fs : List GEvent) (s : GState) :
    execEvents (es ++ fs) s = execEvents fs (execEvents es s) := by
  simp [execEvents, List.foldl_append]

lemma exec_frame (x : ℤ) (s : GState) :
    execEvents (frameEvents x) s =
      { color := WHITE, fillPat := SOLID_FILL, fillColor := BLUE, bg := s.bg,
        drawn := jetPrims x 200 } := by
  have h1 : execEvents (frameEvents x) s =
      execEvents (drawJetEvents x 200 ++ [.delay 30]) { s with drawn := [] } := rfl
  rw [h1, exec_append, exec_drawJet]
  rfl

lemma exec_frames_bg (l : List ℕ) (s : GState) :
    (execEvents (l.flatMap fun x => frameEvents (x : ℤ)) s).bg = s.bg := by
  induction l generalizing s with
  | nil => rfl
  | cons a l ih =>
      rw [List.flatMap_cons, exec_append, ih, exec_frame]

/-- Recognizes a text-rendering call (`outtextxy`). -/
def isTextOut : GEvent → Bool
  | .outtextxy _ _ _ => true
  | _ => false

/-- Recognizes the blocking input wait (`getch`). -/
def isGetch : GEvent → Bool
  | .getch => true
  | _ => false

/-- Recognizes the surface release (`closegraph`). -/
def isCloseg : GEvent → Bool
  | .closegraph => true
  | _ => false

/-- Recognizes a shape-drawing call (rectangle, flood fill, line segment,
or filled ellipse). -/
def isShapeDraw : GEvent → Bool
  | .rectangle _ _ _ _ => true
  | .floodfill _ _ _ => true
  | .line _ _ _ _ => true
  | .fillellipse _ _ _ _ => true
  | _ => false

lemma frame_events_kinds (x : ℤ) :
    ∀ e ∈ frameEvents x, isTextOut e = false ∧ isGetch e = false ∧ isCloseg e = false := by
  intro e he
  fin_cases he <;> exact ⟨rfl, rfl, rfl⟩

lemma animPart_kinds (maxx : ℕ) :
    ∀ e ∈ animPart maxx,
      isTextOut e = false ∧ isGetch e = false ∧ isCloseg e = false := by
  intro e he
  rw [animPart, List.mem_append] at he
  rcases he with he | he
  · fin_cases he <;> exact ⟨rfl, rfl, rfl⟩
  · rw [List.mem_flatMap] at he
    obtain ⟨a, _, he⟩ := he
    exact frame_events_kinds _ e he

lemma forLoopXs_head (fuel x maxx : ℕ) :
    (forLoopXs fuel x maxx).head? = none ∨ (forLoopXs fuel x maxx).head? = some x := by
  cases fuel with
  | zero => exact Or.inl rfl
  | succ fuel =>
      by_cases hx : x < maxx
      · right
        rw [forLoopXs, if_pos hx]
        rfl
      · left
        rw [forLoopXs, if_neg hx]
        rfl

lemma forLoopXs_chain (fuel x maxx : ℕ) :
    List.Chain' (fun a b => b = a + 5) (forLoopXs fuel x maxx) := by
  induction fuel generalizing x with
  | zero => simp [forLoopXs]
  | succ fuel ih =>
      by_cases hx : x < maxx
      · rw [forLoopXs, if_pos hx, List.chain'_cons']
        refine ⟨fun b hb => ?_, ih (x + 5)⟩
        rcases forLoopXs_head fuel (x + 5) maxx with h | h <;> rw [h] at hb
        · cases hb
        · rw [Option.mem_some_iff] at hb
          omega
      · rw [forLoopXs, if_neg hx]
        simp

lemma animXs_head (maxx : ℕ) :
    (animXs maxx).head? = if 0 < maxx then some 0 else none := by
  cases maxx with
  | zero => rfl
  | succ m =>
      rw [animXs, forLoopXs, if_pos (Nat.succ_pos m), if_pos (Nat.succ_pos m)]
      rfl

lemma range_filter_mod5 (m : ℕ) :
    (List.range m).filter (fun a => a % 5 == 0) =
      (List.range ((m + 4) / 5)).map (fun i => 5 * i) := by
  induction m with
  | zero => rfl
  | succ m ih =>
      rw [List.range_succ, List.filter_append, ih]
      by_cases h5 : m % 5 = 0
      · have hf : List.filter (fun a => a % 5 == 0) [m] = [m] := by
          simp [List.filter, h5]
        have hk : (m + 1 + 4) / 5 = (m + 4) / 5 + 1 := by omega
        rw [hf, hk, List.range_succ, List.map_append]
        have hm : 5 * ((m + 4) / 5) = m := by omega
        rw [List.map_singleton, hm]
      · have hb : (m % 5 == 0) = false := by
          simp [h5]
        have hf : List.filter (fun a => a % 5 == 0) [m] = [] := by
          simp [List.filter, hb]
        have hk : (m + 1 + 4) / 5 = (m + 4) / 5 := by omega
        rw [hf, hk, List.append_nil]

lemma animXs_filter (maxx : ℕ) :
    animXs maxx = (List.range maxx).filter (fun a => a % 5 == 0) := by
  rw [animXs_eq, range_filter_mod5]

lemma animXs_mem (maxx a : ℕ) : a ∈ animXs maxx ↔ a < maxx ∧ a % 5 = 0 := by
  rw [animXs_filter, List.mem_filter, List.mem_range]
  simp

/-- Recognizes a rectangle primitive. -/
def isRectP : Prim → Bool
  | .rect _ _ _ _ _ => true
  | _ => false

/-- Recognizes a line-segment primitive. -/
def isSegP : Prim → Bool
  | .seg _ _ _ _ _ => true
  | _ => false

/-- Recognizes a filled-ellipse primitive. -/
def isFillelP : Prim → Bool
  | .fillel _ _ _ _ _ _ _ => true
  | _ => false

/-- The outline/stroke color a primitive is painted with (`none` for a
flood fill, which paints no outline). -/
def strokeColorOf : Prim → Option ℕ
  | .rect _ _ _ _ c => some c
  | .seg _ _ _ _ c => some c
  | .flood _ _ _ _ _ => none
  | .fillel _ _ _ _ _ _ c => some c
  | .text _ _ _ c => some c

/-- The interior fill color of a primitive (`none` for unfilled
primitives). -/
def fillColorOf : Prim → Option ℕ
  | .flood _ _ _ _ fc => some fc
  | .fillel _ _ _ _ _ fc _ => some fc
  | _ => none

set_option maxRecDepth 8192

/-- C1: from any graphics state, `drawJet(x, y)` appends to the surface
exactly 1 rectangle (with its flood fill), then 4 line segments — the two
tail-fin segments, then the two nose segments — then 2 filled window
ellipses, in that relative order. -/
theorem drawJet_primitive_order (s : GState) (x y : ℤ) :
    (execEvents (drawJetEvents x y) s).drawn = s.drawn ++ jetPrims x y
    ∧ jetPrims x y =
        [ Prim.rect x y (x + 100) (y + 20) WHITE,
          Prim.flood (x + 1) (y + 1) WHITE SOLID_FILL WHITE,
          Prim.seg (x + 100) (y + 10) (x + 120) y WHITE,
          Prim.seg (x + 100) (y + 10) (x + 120) (y + 20) WHITE,
          Prim.seg x y (x - 20) (y + 10) WHITE,
          Prim.seg (x - 20) (y + 10) x (y + 20) WHITE,
          Prim.fillel (x + 30) (y + 10) 5 5 SOLID_FILL BLUE WHITE,
          Prim.fillel (x + 50) (y + 10) 5 5 SOLID_FILL BLUE WHITE ]
    ∧ (jetPrims x y).countP isRectP = 1
    ∧ (jetPrims x y).countP isSegP = 4
    ∧ (jetPrims x y).countP isFillelP = 2 := by
  refine ⟨?_, rfl, rfl, rfl, rfl⟩
  rw [exec_drawJet]

/-- C2: the animation loop runs `⌈maxx / 5⌉ = (maxx + 4) / 5` iterations,
where `maxx` is the loop bound `getmaxx()`; for a bound of 800 that is 160
iterations, the last at x = 795. -/
theorem anim_loop_iterations (maxx : ℕ) :
    (animXs maxx).length = (maxx + 4) / 5
    ∧ (animXs 800).length = 160
    ∧ (animXs 800).getLast? = some 795 := by
  refine ⟨?_, by decide, by decide⟩
  rw [animXs_eq]
  simp

/-- C3: the source never checks whether `initgraph` acquired a surface
(`exit()` is included but never called), so on a failed initialization the
program still runs the whole animation, still draws, and still returns 0 —
it does not terminate immediately as the claim states. -/
theorem init_failure_unchecked :
    (mainResult false 10 10).1 = (mainResult true 10 10).1
    ∧ GEvent.rectangle 0 200 100 220 ∈ (mainResult false 10 10).1
    ∧ (mainResult false 10 10).2 = 0 := by
  refine ⟨rfl, ?_, rfl⟩
  decide

/-- C4: one loop iteration from any prior state clears the whole surface
and redraws, leaving exactly the current frame's jet primitives over the
unchanged background — no residue from the prior frame survives. -/
theorem frame_clear_before_draw (s : GState) (x : ℤ) :
    execEvents (frameEvents x) s =
      { color := WHITE, fillPat := SOLID_FILL, fillColor := BLUE, bg := s.bg,
        drawn := jetPrims x 200 } :=
  exec_frame x s

/-- C5: after the animation part, `main` issues exactly one text prompt,
then exactly one blocking `getch`, then `closegraph`, and returns 0;
the trace contains no other prompt, wait, or release. -/
theorem finale_prompt_wait_exit (maxx maxy : ℕ) :
    mainEvents maxx maxy =
      animPart maxx ++
        [ .outtextxy ((maxx : ℤ) / 2 - 100) ((maxy : ℤ) - 30) "Press any key to exit...",
          .getch,
          .closegraph ]
    ∧ (mainEvents maxx maxy).countP isTextOut = 1
    ∧ (mainEvents maxx maxy).countP isGetch = 1
    ∧ (mainEvents maxx maxy).countP isCloseg = 1
    ∧ (mainResult true maxx maxy).2 = 0 := by
  have hz : ∀ p : GEvent → Bool, (∀ e ∈ animPart maxx, p e = false) →
      (animPart maxx).countP p = 0 := by
    intro p hp
    exact List.countP_eq_zero.mpr fun a ha => by simp [hp a ha]
  refine ⟨rfl, ?_, ?_, ?_, rfl⟩ <;> rw [mainEvents, List.countP_append]
  · rw [hz isTextOut fun e he => (animPart_kinds maxx e he).1]
    rfl
  · rw [hz isGetch fun e he => (animPart_kinds maxx e he).2.1]
    rfl
  · rw [hz isCloseg fun e he => (animPart_kinds maxx e he).2.2]
    rfl

/-- C6: `drawJet(x, y)` run on two identically cleared surfaces (same
background, empty pixel content) yields identical graphics states — hence
pixel-identical output — whatever the prior pen/fill state was. -/
theorem drawJet_deterministic (x y : ℤ) (s₁ s₂ : GState) (hbg : s₁.bg = s₂.bg) :
    execEvents (drawJetEvents x y) (stepEvent s₁ .cleardevice) =
      execEvents (drawJetEvents x y) (stepEvent s₂ .cleardevice) := by
  rw [exec_drawJet, exec_drawJet]
  simp [stepEvent, hbg]

/-- Witness for C6 at x = 0, y = 200 with two cleared states that differ
in their pen color. -/
theorem drawJet_deterministic_witness :
    execEvents (drawJetEvents 0 200) (stepEvent startState .cleardevice) =
      execEvents (drawJetEvents 0 200)
        (stepEvent { startState with color := BLUE } .cleardevice) :=
  drawJet_deterministic 0 200 startState { startState with color := BLUE } rfl

/-- C7: running `main` leaves the background color `BLUE`; the jet's
rectangle, segments and ellipse outlines are stroked `WHITE`; the body
flood fill is `WHITE`; and the two window ellipses — last in the primitive
list, hence atop the body fill — are filled `BLUE`. -/
theorem palette_colors (maxx maxy : ℕ) (x y : ℤ) (s : GState) :
    (execEvents (mainEvents maxx maxy) s).bg = BLUE
    ∧ (jetPrims x y).map strokeColorOf =
        [some WHITE, none, some WHITE, some WHITE, some WHITE, some WHITE,
          some WHITE, some WHITE]
    ∧ (jetPrims x y).map fillColorOf =
        [none, some WHITE, none, none, none, none, some BLUE, some BLUE] := by
  refine ⟨?_, rfl, rfl⟩
  rw [mainEvents, exec_append, animPart, exec_append]
  have hfin : ∀ t : GState,
      (execEvents
        [ GEvent.outtextxy ((maxx : ℤ) / 2 - 100) ((maxy : ℤ) - 30)
            "Press any key to exit...",
          GEvent.getch, GEvent.closegraph] t).bg = t.bg := fun t => rfl
  rw [hfin, exec_frames_bg]
  rfl

/-- C8: the anchor positions are chained in increments of 5 starting at 0
(monotone, no early exit), they are exactly the multiples of 5 below the
loop bound (no frame skipped, none drawn at or past the bound), and they
are sorted. -/
theorem anim_positions_monotone (maxx : ℕ) :
    List.Chain' (fun a b => b = a + 5) (animXs maxx)
    ∧ (animXs maxx).head? = (if 0 < maxx then some 0 else none)
    ∧ (∀ a : ℕ, a ∈ animXs maxx ↔ a < maxx ∧ a % 5 = 0)
    ∧ List.Pairwise (· ≤ ·) (animXs maxx) := by
  refine ⟨forLoopXs_chain maxx 0 maxx, animXs_head maxx, fun a => animXs_mem maxx a, ?_⟩
  rw [animXs_filter]
  exact ((List.pairwise_lt_range maxx).imp le_of_lt).filter _

/-- C9: `drawJet` leaves the process-global drawing state at pen color
`WHITE` and fill style `(SOLID_FILL, BLUE)`, regardless of the state it
started from. -/
theorem drawJet_global_state (s : GState) (x y : ℤ) :
    (execEvents (drawJetEvents x y) s).color = WHITE
    ∧ (execEvents (drawJetEvents x y) s).fillPat = SOLID_FILL
    ∧ (execEvents (drawJetEvents x y) s).fillColor = BLUE := by
  rw [exec_drawJet]
  exact ⟨rfl, rfl, rfl⟩

/-- C10: anchor 0 is drawn and any anchor x < 20 places a nose vertex at
the negative abscissa x − 20; any anchor beyond `maxx − 120` (i.e. beyond
surfaceWidth − 121 for a surface of width `maxx + 1` with right edge
`maxx`) places the tail vertex x + 120 past the right edge; and the loop
does produce an anchor in that high range. -/
theorem shape_exceeds_bounds (maxx : ℕ) (y : ℤ) (h : 0 < maxx) :
    0 ∈ animXs maxx
    ∧ (∀ x : ℤ, x < 20 →
        GEvent.line x y (x - 20) (y + 10) ∈ drawJetEvents x y ∧ x - 20 < 0)
    ∧ (∀ x : ℤ, (maxx : ℤ) - 120 < x →
        GEvent.line (x + 100) (y + 10) (x + 120) y ∈ drawJetEvents x y
          ∧ (maxx : ℤ) < x + 120)
    ∧ (∃ L ∈ animXs maxx, (maxx : ℤ) - 120 < (L : ℤ)) := by
  refine ⟨(animXs_mem maxx 0).mpr ⟨h, rfl⟩, ?_, ?_, ?_⟩
  · intro x hx
    exact ⟨by simp [drawJetEvents], by omega⟩
  · intro x hx
    exact ⟨by simp [drawJetEvents], by omega⟩
  · refine ⟨5 * ((maxx + 4) / 5 - 1), (animXs_mem _ _).mpr ⟨by omega, by omega⟩, ?_⟩
    omega

/-- Witness for C10 at a loop bound of 800: anchor 0 is among the drawn
positions. -/
theorem shape_exceeds_bounds_witness : 0 ∈ animXs 800 :=
  (shape_exceeds_bounds 800 200 (by decide)).1
